import Mathlib

/-!
A verification development for the GPS-disciplined FE5680A controller
(`GPSDO_FE_v3.c`).  The C program is shallowly embedded: machine integers
are modelled as `Nat`/`Int` with explicit wrap-around where the C types
wrap, C `double` arithmetic is modelled exactly over `ℚ`, and the
interrupt-driven producer / main-loop consumer system is modelled as a
step function over an explicit event alphabet (PPS capture interrupt,
completed GPS serial line, one pass of the main `while(1)` loop).
The build configuration is the default one of the source file:
`FE405` undefined, `DEBUG` (and hence `SERIAL_TX`) defined.
-/

namespace GPSDO

/-! ## Compile-time constants (from the `#define` block, non-FE405 values) -/

def F_CPU : Nat := 30000000
def BIT_REDUCE : Nat := 2
/-- `GAIN (1466 >> BIT_REDUCE)` -/
def GAIN : Nat := 1466 >>> BIT_REDUCE
/-- `START_GAIN (GAIN / 100.0)` -/
def START_GAIN : ℚ := (GAIN : ℚ) / 100
def TC_FAST : Nat := 100
def TC_MED : Nat := 1800
def TC_SLOW : Nat := 7200
/-- `DAMPING 1.75` -/
def DAMPING : ℚ := 175 / 100
/-- `QE_COMPENSATION 1.5` -/
def QE_COMPENSATION : ℚ := 15 / 10
def PHASE_ADC_MIDPOINT : Nat := 1024
def MODE_START : Nat := 0
def MODE_FAST : Nat := 1
def MODE_MED : Nat := 2
def MODE_SLOW : Nat := 3

/-! ## Machine-integer helpers -/

/-- Reinterpret an AVR `unsigned int` (16 bit) bit pattern as `int`. -/
def toInt16 (n : Nat) : ℤ :=
  let m := n % 65536
  if m < 32768 then (m : ℤ) else (m : ℤ) - 65536

/-- Wrap a mathematical integer to the 16-bit signed range (gcc wraps on
signed overflow of `int` on AVR). -/
def wrap16 (z : ℤ) : ℤ :=
  let m := z % 65536
  if m < 32768 then m else m - 65536

/-- Reinterpret an `unsigned long` (32 bit) bit pattern as `long`. -/
def toInt32 (n : Nat) : ℤ :=
  let m := n % 4294967296
  if m < 2147483648 then (m : ℤ) else (m : ℤ) - 4294967296

/-- Wrap a mathematical integer to the 32-bit signed range. -/
def wrap32 (z : ℤ) : ℤ :=
  let m := z % 4294967296
  if m < 2147483648 then m else m - 4294967296

/-- Convert a `long` value to the `unsigned long` bit pattern. -/
def toNat32 (z : ℤ) : Nat := (z % 4294967296).toNat

/-- A C cast from `double` to an integer type truncates toward zero. -/
def ctrunc (q : ℚ) : ℤ := if 0 ≤ q then q.floor else q.ceil

/-! ## `atof` (decimal text to quantization-error value)

The C library `atof` skips leading whitespace, accepts an optional sign,
an integer part and an optional fractional part, and stops at the first
character it cannot use (returning 0 when there are no digits at all).
Exponent notation is not modelled; the GPS quantization-error field never
carries one. -/

def readNat : List Nat → Nat → Nat × List Nat
  | [], acc => (acc, [])
  | c :: rest, acc =>
    if 48 ≤ c ∧ c ≤ 57 then readNat rest (acc * 10 + (c - 48)) else (acc, c :: rest)

def readFrac : List Nat → ℚ → ℚ
  | [], _ => 0
  | c :: rest, scale =>
    if 48 ≤ c ∧ c ≤ 57 then ((c - 48 : Nat) : ℚ) * scale + readFrac rest (scale / 10) else 0

def atofUnsigned (l : List Nat) : ℚ :=
  let p := readNat l 0
  match p.2 with
  | 46 :: rest => (p.1 : ℚ) + readFrac rest (1 / 10)
  | _ => (p.1 : ℚ)

def atof (l : List Nat) : ℚ :=
  let l := l.dropWhile (fun c => c = 32 ∨ c = 9)
  match l with
  | 45 :: rest => -(atofUnsigned rest)
  | 43 :: rest => atofUnsigned rest
  | _ => atofUnsigned l

/-! ## GPS sentence handling (`hexChar`, `skip_commas`, `handleGPS`) -/

/-- `hexChar`: lower-cases `A`..`F`, then locates the character in
`"0123456789abcdef"` with `strchr`.  `strchr` finds the terminating NUL of
the table when given 0 (index 16) and returns NULL (mapped to 0) for any
other non-hex character. -/
def hexChar (c : Nat) : Nat :=
  let c := if 65 ≤ c ∧ c ≤ 70 then c + 32 else c
  if c = 0 then 16
  else if 48 ≤ c ∧ c ≤ 57 then c - 48
  else if 97 ≤ c ∧ c ≤ 102 then c - 87
  else 0

/-- C-string view of the receive buffer: everything before the first NUL. -/
def cstr (l : List Nat) : List Nat := l.takeWhile (· ≠ 0)

/-- `skip_commas`: advance past `num` commas, `none` when `strchr` finds
no further comma. -/
def skipCommas : List Nat → Nat → Option (List Nat)
  | l, 0 => some l
  | l, n + 1 =>
    match l.dropWhile (· ≠ 44) with
    | [] => none
    | _ :: rest => skipCommas rest n

/-- The checksummed body of a sentence: the bytes strictly between the
leading `$` and the first `*` (or the whole tail when no `*` occurs). -/
def nmeaBody (buf : List Nat) : List Nat := (buf.drop 1).takeWhile (· ≠ 42)

/-- Index of the `*` found by the checksum loop (equals the length of the
line when there is none). -/
def starIdx (buf : List Nat) : Nat := 1 + (nmeaBody buf).length

/-- The two hex digits following `*`, assembled as
`(hexChar(buf[i+1]) << 4) | hexChar(buf[i+2])` stored into an
`unsigned char`. -/
def sentChecksum (buf : List Nat) : Nat :=
  ((hexChar (buf.getD (starIdx buf + 1) 0)) <<< 4 ||| hexChar (buf.getD (starIdx buf + 2) 0)) % 256

/-- Combined structural/checksum test of `handleGPS`: there must be room
for the `*` and two checksum digits, and the transmitted checksum must
equal the XOR of the body bytes. -/
def checksumOk (buf : List Nat) : Bool :=
  decide (starIdx buf + 3 ≤ buf.length) &&
    decide (sentChecksum buf = (nmeaBody buf).foldl Nat.xor 0)

def GPRMC_id : List Nat := [36, 71, 80, 82, 77, 67]
def GPGSA_id : List Nat := [36, 71, 80, 71, 83, 65]
def PSTI00_id : List Nat := [36, 80, 83, 84, 73, 44, 48, 48]

/-- `handleGPS`, restricted to the two pieces of state the control loop
consumes: `gps_locked` and the quantization-error latch `pps_err_buf`
(the `DEBUG`-only `time_buf`/`date_buf`/`pdop_buf` copies touch no other
modelled state and are omitted).  The latch is represented as the list of
bytes before its NUL terminator; the cleared latch (`pps_err_buf[0]==0`)
is the empty list. -/
def handleGPSFn (buf : List Nat) (g : Bool) (qe : List Nat) : Bool × List Nat :=
  if buf.length < 9 then (g, qe)
  else if ¬ checksumOk buf then (g, qe)
  else if GPRMC_id.isPrefixOf buf then (g, qe)
  else if GPGSA_id.isPrefixOf buf then
    match skipCommas (cstr buf) 2 with
    | none => (g, qe)
    | some rest => (decide (rest.headD 0 = 51 ∨ rest.headD 0 = 50), qe)
  else if PSTI00_id.isPrefixOf buf then
    match skipCommas (cstr buf) 4 with
    | none => (g, qe)
    | some rest =>
      if rest.contains 44 then
        (g, (rest.takeWhile (· ≠ 44)).take 4)
      else
        -- In C this case subtracts a NULL `strchr` result from a valid
        -- pointer: the copied length is unspecified (undefined behavior).
        -- The model leaves the latch unchanged on this branch.
        (g, qe)
  else (g, qe)

/-! ## Oscillator tuning frame (`writeDacValue` serial protocol) -/

/-- Byte `i` of the (already bit-restored) tuning value as transmitted:
`(unsigned char)(value >> (i * 8))` with an arithmetic shift. -/
def frameByte (v : ℤ) (i : Nat) : Nat := ((Int.fdiv v (2 ^ (8 * i))) % 256).toNat

/-- The four payload bytes, MSB first. -/
def payloadBytes (v : ℤ) : List Nat :=
  [frameByte v 3, frameByte v 2, frameByte v 1, frameByte v 0]

/-- Running XOR of the payload bytes in transmission order. -/
def payloadChecksum (v : ℤ) : Nat :=
  Nat.xor (Nat.xor (Nat.xor (frameByte v 3) (frameByte v 2)) (frameByte v 1)) (frameByte v 0)

/-- The frame `writeDacValue` emits for a tuning value: command id,
length (9, LSB first), header checksum, the value left-shifted by
`BIT_REDUCE` as four bytes MSB first, and the payload XOR checksum. -/
def encodeFrame (value : ℤ) (non_volatile : Bool) : List Nat :=
  let v := value * 2 ^ BIT_REDUCE
  (if non_volatile then 44 else 46) :: 9 :: 0 :: (if non_volatile then 37 else 39) ::
    payloadBytes v ++ [payloadChecksum v]

/-- Modelled from the spec: the inbound decoder/validator for a tuning
frame is not part of `src` (the oscillator consumes the frame; the
read-back path in the source is compiled out under `#if 0`).  Following
§4.4/§8: a valid frame has the recognized opcode with its fixed header
checksum, the fixed length field, byte-sized payload entries and a
payload checksum equal to the XOR of the four payload bytes; decoding
reinterprets the payload MSB-first as a signed 32-bit value and undoes
the `BIT_REDUCE` shift, and recovers the persistence flag from the
opcode. -/
def decodeFrame (f : List Nat) : Option (ℤ × Bool) :=
  match f with
  | [op, l1, l2, hc, b3, b2, b1, b0, pc] =>
    if l1 = 9 ∧ l2 = 0 ∧ ((op = 44 ∧ hc = 37) ∨ (op = 46 ∧ hc = 39)) ∧
        b3 < 256 ∧ b2 < 256 ∧ b1 < 256 ∧ b0 < 256 ∧
        pc = Nat.xor (Nat.xor (Nat.xor b3 b2) b1) b0 then
      let u : Nat := ((b3 * 256 + b2) * 256 + b1) * 256 + b0
      let sv : ℤ := if u < 2147483648 then (u : ℤ) else (u : ℤ) - 4294967296
      some (Int.fdiv sv (2 ^ BIT_REDUCE), decide (op = 44))
    else none
  | _ => none

/-- Modelled from the spec: checksum validation of a received frame. -/
def validFrame (f : List Nat) : Bool := (decodeFrame f).isSome

/-! ## System state

All globals that the disciplining loop reads or writes.  The `DEBUG`
diagnostic buffers (`pdop_buf`, `time_buf`, `date_buf`) and the transmit
ring never feed back into the control flow and are omitted; the
button/LED logic and the one-time 32 MHz to PLL clock hand-over are output
or bring-up machinery (the hand-over is kept as the boolean `clk_pll`
because the C `continue`s once when it happens).  `last_gps_locked` and
`last_osc_locked` are initialized to `0xff` ("none of the above"),
modelled as `none`. -/
structure Sys where
  last_dac_value : ℤ
  iTerm : ℚ
  trim_value : ℚ
  average_phase_error : ℚ
  average_pps_error : ℚ
  mode : Nat
  exit_timer : Nat
  enter_timer : Nat
  pps_count : Nat
  gps_locked : Bool
  pps_err_buf : List Nat
  irq_adc_value : Nat
  irq_time_span : Nat
  last_timer_val : Nat
  last_osc_locked : Option Bool
  last_gps_locked : Option Bool
  last_pps_count : Nat
  clk_pll : Bool
  deriving Repr, DecidableEq

/-- `mode_to_tc` (the `default` arm of the `switch` returns 0). -/
def mode_to_tc (mode : Nat) : Nat :=
  if mode = MODE_START ∨ mode = MODE_FAST then TC_FAST
  else if mode = MODE_MED then TC_MED
  else if mode = MODE_SLOW then TC_SLOW
  else 0

/-- `reset_pll` -/
def reset_pll (s : Sys) : Sys :=
  let s :=
    if s.mode ≠ MODE_START then
      { s with trim_value := s.trim_value - s.iTerm / (mode_to_tc s.mode : ℚ) }
    else s
  { s with iTerm := 0, average_phase_error := 0, average_pps_error := 0,
           mode := MODE_START, exit_timer := 0 }

/-- `downgrade_mode` (`mode` is an `unsigned char`, `enter_timer` an
`unsigned int`). -/
def downgrade_mode (s : Sys) : Sys :=
  let et := (100 * s.mode) % 65536
  let m := (s.mode + 255) % 256
  { s with enter_timer := et, mode := m,
           iTerm := s.iTerm * ((mode_to_tc m : ℚ) / (mode_to_tc (m + 1) : ℚ)) }

/-- `writeDacValue`: suppresses the serial write when the value repeats;
only the `last_dac_value` latch is system state (the transmitted frame is
`encodeFrame`). -/
def writeDac (s : Sys) (value : ℤ) : Sys :=
  if value = s.last_dac_value then s else { s with last_dac_value := value }

/-- `ISR(TCC5_CCA_vect)`: capture the ADC phase value and the 32-bit
cycle span since the previous pulse, clear the quantization-error latch
(the next sawtooth message applies to this pulse), and bump `pps_count`. -/
def pulseISR (s : Sys) (timer_val adc : Nat) : Sys :=
  let t := timer_val % 4294967296
  { s with irq_adc_value := adc % 65536,
           irq_time_span := (t + 4294967296 - s.last_timer_val % 4294967296) % 4294967296,
           last_timer_val := t,
           pps_err_buf := [],
           pps_count := (s.pps_count + 1) % 4294967296 }

/-! ## Per-second observation math (main loop, lines 879-937) -/

/-- `long pps_cycle_delta = irq_time_span - F_CPU;` (computed in
`unsigned long`, then reinterpreted as `long`). -/
def ppsCycleDelta (span : Nat) : ℤ :=
  toInt32 (span % 4294967296 + 4294967296 - F_CPU)

/-- `unsigned long seconds_delta = (pps_cycle_delta + F_CPU/2) / F_CPU;`
(`F_CPU/2` is unsigned, so the sum and quotient are `unsigned long`). -/
def secondsDelta (span : Nat) : Nat :=
  toNat32 (ppsCycleDelta span + 15000000) / F_CPU

/-- `long intracycle_delta = pps_cycle_delta - ((long)(seconds_delta * F_CPU));` -/
def intracycleDelta (span : Nat) : ℤ :=
  wrap32 (ppsCycleDelta span - toInt32 (secondsDelta span * F_CPU))

/-- The 1000-ppm sanity bound:
`labs(intracycle_delta) / (seconds_delta + 1) > (F_CPU / 10000)`. -/
def sanityFail (span : Nat) : Bool :=
  decide (F_CPU / 10000 < (intracycleDelta span).natAbs / (secondsDelta span + 1))

/-- `current_phase_error`: `(PHASE_ADC_MIDPOINT - ((int)irq_adc_value)) >> 1`
plus the rounded, compensated quantization error, in `int` arithmetic. -/
def currentPhaseError (adc : Nat) (pps_err : ℚ) : ℤ :=
  let base := Int.fdiv (wrap16 ((PHASE_ADC_MIDPOINT : ℤ) - toInt16 adc)) 2
  wrap16 (base + ctrunc (QE_COMPENSATION * pps_err + 1 / 2))

/-! ## The two controller branches -/

/-- `MODE_START` branch (frequency-locked loop): slew `trim_value` from
the averaged PPS error, write the DAC, and run the Start→Fast exit
hysteresis (`++exit_timer` always increments before the comparison). -/
def startBranch (s : Sys) : Sys :=
  let adj : ℚ := ((1000000000 : ℚ) / (F_CPU : ℚ)) * s.average_pps_error * START_GAIN
  let trim := s.trim_value - adj
  let s := writeDac { s with trim_value := trim } (ctrunc trim)
  if |s.average_pps_error| ≤ 25 / 100 then
    let et := (s.exit_timer + 1) % 65536
    if (60 ≤ et ∧ |s.average_phase_error| ≤ 20) ∨ 600 ≤ et then
      { s with mode := MODE_FAST, exit_timer := 0 }
    else { s with exit_timer := et }
  else { s with exit_timer := 0 }

/-- Integral anti-windup (lines 1091-1099): when `|iTerm|` exceeds
`1000 * time_constant`, move `1000 * time_constant` out of `iTerm` and
1000 out of `trim_value`, with the sign of `iTerm`. -/
def antiWindup (tc : Nat) (iT trim : ℚ) : ℚ × ℚ :=
  let m : ℚ := 1000 * (tc : ℚ)
  if m < |iT| then
    let sign : ℚ := if iT < 0 then -1 else 1
    (iT - sign * m, trim - sign * 1000)
  else (iT, trim)

/-- Upgrade hysteresis (lines 1016-1043): not from `MODE_SLOW`; when the
filtered phase error has stayed within 5 ns for `200 * mode * mode`
ticks, step the mode up and rescale `iTerm` by the time-constant ratio
(`++exit_timer` increments before the comparison). -/
def upgradeStep (s : Sys) : Sys :=
  if s.mode ≠ MODE_SLOW then
    if |s.average_phase_error| ≤ 5 then
      let et := (s.exit_timer + 1) % 65536
      if 200 * s.mode * s.mode ≤ et then
        let m := (s.mode + 1) % 256
        { s with exit_timer := 0, mode := m,
                 iTerm := s.iTerm * ((mode_to_tc m : ℚ) /
                   (mode_to_tc ((m + 255) % 256) : ℚ)) }
      else { s with exit_timer := et }
    else { s with exit_timer := 0 }
  else s

/-- Downgrade hysteresis (lines 1044-1056): not from `MODE_FAST`; the
`enter_timer` grace period counts down first, otherwise a filtered phase
error of at least `50 * mode` ns backs the mode down one step. -/
def downgradeStep (s : Sys) : Sys :=
  if s.mode ≠ MODE_FAST then
    if 0 < s.enter_timer then { s with enter_timer := s.enter_timer - 1 }
    else if (50 : ℚ) * (s.mode : ℚ) ≤ |s.average_phase_error| then downgrade_mode s
    else s
  else s

/-- PI update and DAC write (lines 1076-1099), with the time constant
re-read after any mode change, followed by the anti-windup offload. -/
def piStep (s : Sys) : Sys :=
  let tc := mode_to_tc s.mode
  let pTerm : ℚ := s.average_phase_error * (GAIN : ℚ)
  let iT := s.iTerm + pTerm / ((tc : ℚ) * DAMPING)
  let adj := (pTerm + iT) / (tc : ℚ)
  let s := writeDac { s with iTerm := iT } (ctrunc (s.trim_value - adj + 1 / 2))
  let w := antiWindup tc s.iTerm s.trim_value
  { s with iTerm := w.1, trim_value := w.2 }

/-- Phase-locked-loop branch (`mode` is `MODE_FAST`/`MODE_MED`/`MODE_SLOW`
on entry): upgrade hysteresis, downgrade hysteresis, then the PI update. -/
def pllBranch (s : Sys) : Sys := piStep (downgradeStep (upgradeStep s))

/-- The exponential averages (lines 929-937): both are leaked and fed by
`1/filter_time`, with `filter_time = time_constant / 10` in integer
division, and the PPS sample scaled by `1 / (seconds_delta + 1)`
(the denominator product is computed in `unsigned long`). -/
def filterUpdate (s : Sys) (pps_err : ℚ) : Sys :=
  let ft : ℚ := ((mode_to_tc s.mode / 10 : Nat) : ℚ)
  { s with
    average_phase_error := s.average_phase_error - s.average_phase_error / ft +
      (currentPhaseError s.irq_adc_value pps_err : ℚ) / ft,
    average_pps_error := s.average_pps_error - s.average_pps_error / ft +
      (intracycleDelta s.irq_time_span : ℚ) /
        ((((secondsDelta s.irq_time_span + 1) * (mode_to_tc s.mode / 10)) % 4294967296 : Nat) : ℚ) }

/-- One consumed observation (main loop from line 879 on): delta math,
sanity check, both exponential averages, then the mode dispatch
(`MODE_START` branch; hard 0.5 reset bound at line 1004; PLL branch). -/
def processTick (s : Sys) (pps_err : ℚ) : Sys :=
  if sanityFail s.irq_time_span then s
  else
    let s := filterUpdate s pps_err
    if s.mode = MODE_START then startBranch s
    else if 5 / 10 ≤ |s.average_pps_error| then reset_pll s
    else pllBranch s

/-! ## Main loop -/

/-- GPS lock edge detection (lines 705-722): on a loss of GPS lock, back
down one time-constant step when not already in `MODE_START`. -/
def gpsEdgeStep (s : Sys) : Sys :=
  if some s.gps_locked ≠ s.last_gps_locked then
    let s := { s with last_gps_locked := some s.gps_locked }
    if s.gps_locked then s
    else if 0 < s.mode then downgrade_mode s else s
  else s

/-- Oscillator physics-lock edge detection (lines 725-738): on a loss,
command the DAC to 0 and reset the PLL. -/
def oscEdgeStep (s : Sys) (osc : Bool) : Sys :=
  if some osc ≠ s.last_osc_locked then
    let s := { s with last_osc_locked := some osc }
    if osc then s else reset_pll (writeDac s 0)
  else s

/-- The PPS gate and quantization-error consumption (lines 832-877): no
new pulse means nothing to do; a pending pulse waits until a
quantization-error sentence has arrived; then the latch is copied,
cleared, and either discarded (free-running when GPS or the oscillator is
unlocked) or parsed by `atof` and fed to the controller. -/
def consumeStep (s : Sys) (osc : Bool) : Sys :=
  if s.last_pps_count = s.pps_count then s
  else if s.pps_err_buf = [] then s
  else if ¬ s.gps_locked ∨ ¬ osc then
    { s with last_pps_count := s.pps_count, pps_err_buf := [] }
  else
    processTick { s with last_pps_count := s.pps_count, pps_err_buf := [] }
      (atof s.pps_err_buf)

/-- One pass of the `while(1)` loop, with the oscillator-ready input bit
as a parameter.  The LED/button block is pure output and the button is
modelled as never pressed; the one-time clock hand-over `continue`s. -/
def loopIter (s : Sys) (osc : Bool) : Sys :=
  let s1 := gpsEdgeStep s
  let s2 := oscEdgeStep s1 osc
  if osc ∧ ¬ s2.clk_pll then { s2 with clk_pll := true }
  else consumeStep s2 osc

/-- The event alphabet of the embedded system: a PPS capture interrupt
with the captured 32-bit timer value and ADC conversion result, a
completed GPS serial line (as assembled by `ISR(USARTC0_RXC_vect)`), and
one main-loop pass with the current oscillator-ready input. -/
inductive Ev where
  | pulse (timer_val adc : Nat)
  | gpsLine (buf : List Nat)
  | iter (osc : Bool)
  deriving Repr, DecidableEq

/-- One atomic step.  A `gpsLine` event reaches `handleGPS` only when the
receive ISR would have assembled it: the line starts with `$`, fits the
96-byte buffer, and contains no CR/LF (those terminate the line). -/
def step (s : Sys) : Ev → Sys
  | .pulse t adc => pulseISR s t adc
  | .gpsLine buf =>
    let b := buf.map (· % 256)
    if b.headD 0 = 36 ∧ b.length < 96 ∧ b.all (fun c => c ≠ 13 ∧ c ≠ 10) then
      let r := handleGPSFn b s.gps_locked s.pps_err_buf
      { s with gps_locked := r.1, pps_err_buf := r.2 }
    else s
  | .iter osc => loopIter s osc

def run (s : Sys) (evs : List Ev) : Sys := evs.foldl step s

/-- The state after `main`'s initialization (globals zero-initialized,
then the explicit assignments before `sei()`). -/
def init : Sys :=
  { last_dac_value := 2147483647, iTerm := 0, trim_value := 0,
    average_phase_error := 0, average_pps_error := 0, mode := MODE_START,
    exit_timer := 0, enter_timer := 0, pps_count := 0, gps_locked := false,
    pps_err_buf := [], irq_adc_value := 0, irq_time_span := 0,
    last_timer_val := 0, last_osc_locked := none, last_gps_locked := none,
    last_pps_count := 0, clk_pll := false }

/-! ## Concrete traces

Event sequences used to exercise the machine on explicit inputs.  The GPS
lines below carry correct NMEA checksums:
`$GPGSA,A,3*30`, `$GPGSA,A,1*32`, `$PSTI,00,2,0,0,,*2C`,
`$PSTI,00,2,0,5,,*29`, `$PSTI,00,2,0,2,,*2E`. -/

def gpgsaLock : Ev := .gpsLine [36, 71, 80, 71, 83, 65, 44, 65, 44, 51, 42, 51, 48]
def gpgsaUnlock : Ev := .gpsLine [36, 71, 80, 71, 83, 65, 44, 65, 44, 49, 42, 51, 50]
def pstiZero : Ev := .gpsLine [36, 80, 83, 84, 73, 44, 48, 48, 44, 50, 44, 48, 44, 48, 44, 44, 42, 50, 67]
def pstiFive : Ev := .gpsLine [36, 80, 83, 84, 73, 44, 48, 48, 44, 50, 44, 48, 44, 53, 44, 44, 42, 50, 57]
def pstiTwo : Ev := .gpsLine [36, 80, 83, 84, 73, 44, 48, 48, 44, 50, 44, 48, 44, 50, 44, 44, 42, 50, 69]

/-- One nominal second: a PPS pulse at timer value `k * F_CPU` with the
ADC reading exactly the midpoint, the zero-quantization-error sentence,
and one main-loop pass. -/
def tickEvs (k : Nat) : List Ev := [.pulse (k * 30000000) 1024, pstiZero, .iter true]

/-- Nominal seconds numbered `a+1` through `b`. -/
def tickRange (a b : Nat) : List Ev := (List.range (b - a)).flatMap (fun k => tickEvs (a + k + 1))

/-- Acquire GPS lock, let the loop pass once (performing the one-time
clock hand-over), then run `n` nominal seconds. -/
def lockTrace (n : Nat) : List Ev := gpgsaLock :: .iter true :: tickRange 0 n

/-- The state after `lockTrace n` on the nominal traces: everything
quiet, mode `m`, exit timer `et`, `n` pulses seen and consumed. -/
def midState (m et n : Nat) : Sys :=
  { last_dac_value := 0, iTerm := 0, trim_value := 0,
    average_phase_error := 0, average_pps_error := 0, mode := m,
    exit_timer := et, enter_timer := 0, pps_count := n, gps_locked := true,
    pps_err_buf := [], irq_adc_value := 1024, irq_time_span := 30000000,
    last_timer_val := (n * 30000000) % 4294967296, last_osc_locked := some true,
    last_gps_locked := some true, last_pps_count := n, clk_pll := true }

/-- One off-nominal second: the PPS pulse arrives with the ADC reading
1000 (a 24-count, 12 ns phase offset), followed by the zero-QE sentence
and a loop pass. -/
def c2tick : List Ev := [.pulse (61 * 30000000) 1000, pstiZero, .iter true]

/-- Reach Fast with one phase-offset tick accumulated (`iTerm ≠ 0`), so
that a subsequent reset has something to fold back. -/
def c2trace : List Ev := lockTrace 60 ++ c2tick

/-- Acquire lock, process one off-nominal second (non-zero filtered phase
error), then lose the GPS fix while still in Start mode. -/
def c3trace : List Ev :=
  [gpgsaLock, .iter true, .pulse 30000000 1000, pstiZero, .iter true, gpgsaUnlock]

/-- Two pulses; a QE sentence with value 5 arrives after the first pulse
and one with value 2 after the second. -/
def c1pre : List Ev :=
  [gpgsaLock, .iter true, .pulse 30000000 1024, pstiFive, .pulse 60000000 1024]

/-- One pulse with a 12 ns phase offset and no QE sentence at all,
followed by two loop passes. -/
def c4trace : List Ev :=
  [gpgsaLock, .iter true, .pulse 30000000 1000, .iter true, .iter true]

/-- `n` nominal seconds during which no quantization-error sentence ever
arrives: each pulse is followed by a loop pass with an empty QE latch. -/
def noQeTicks (n : Nat) : List Ev :=
  (List.range n).flatMap (fun k => [Ev.pulse ((k + 1) * 30000000) 1024, Ev.iter true])

def c5trace : List Ev := gpgsaLock :: .iter true :: noQeTicks 60

/-- A Slow-mode state that has just seen the GPS fix drop. -/
def c3state : Sys :=
  { midState 3 0 7 with gps_locked := false, last_gps_locked := some true }

/-- `$GPGSA,A,3*30` — a correctly checksummed GPGSA sentence truncated
right after the fix-type field: far fewer than the 16 commas of the full
GPGSA shape (whose 16th field, the PDOP, this very handler goes on to
read). -/
def gpgsaTrunc : List Nat := [36, 71, 80, 71, 83, 65, 44, 65, 44, 51, 42, 51, 48]

/-- `$GPGSA,A,3*31` — the same sentence with a wrong checksum. -/
def gpgsaBadck : List Nat := [36, 71, 80, 71, 83, 65, 44, 65, 44, 51, 42, 51, 49]

attribute [local semireducible] Rat.add Rat.inv Rat.mul Rat.sub

theorem run_append (s : Sys) (a b : List Ev) : run s (a ++ b) = run (run s a) b :=
  List.foldl_append step s a b

set_option maxRecDepth 200000

theorem seg0_40 : run init (lockTrace 40) = midState 0 40 40 := by decide

theorem seg40_59 : run (midState 0 40 40) (tickRange 40 59) = midState 0 59 59 := by decide

theorem seg59_60 : run (midState 0 59 59) (tickRange 59 60) = midState 1 0 60 := by decide

theorem seg60_100 : run (midState 1 0 60) (tickRange 60 100) = midState 1 40 100 := by decide

theorem seg100_140 : run (midState 1 40 100) (tickRange 100 140) = midState 1 80 140 := by decide

theorem seg140_180 : run (midState 1 80 140) (tickRange 140 180) = midState 1 120 180 := by decide

theorem seg180_220 : run (midState 1 120 180) (tickRange 180 220) = midState 1 160 220 := by decide

theorem seg220_260 : run (midState 1 160 220) (tickRange 220 260) = midState 2 0 260 := by decide

theorem lockTrace_split_59 :
    lockTrace 59 = lockTrace 40 ++ tickRange 40 59 := by decide

theorem lockTrace_split_60 :
    lockTrace 60 = (lockTrace 40 ++ tickRange 40 59) ++ tickRange 59 60 := by decide

theorem lockTrace_split_260 :
    lockTrace 260 = ((((((lockTrace 40 ++ tickRange 40 59) ++ tickRange 59 60) ++
      tickRange 60 100) ++ tickRange 100 140) ++ tickRange 140 180) ++
      tickRange 180 220) ++ tickRange 220 260 := by decide

theorem run_lockTrace_59 : run init (lockTrace 59) = midState 0 59 59 := by
  rw [lockTrace_split_59, run_append, seg0_40, seg40_59]

theorem run_lockTrace_60 : run init (lockTrace 60) = midState 1 0 60 := by
  rw [lockTrace_split_60, run_append, run_append, seg0_40, seg40_59, seg59_60]

theorem run_lockTrace_260 : run init (lockTrace 260) = midState 2 0 260 := by
  rw [lockTrace_split_260]
  rw [run_append, run_append, run_append, run_append, run_append, run_append,
    run_append, seg0_40, seg40_59, seg59_60, seg60_100, seg100_140, seg140_180,
    seg180_220, seg220_260]

/-! ## Helper lemmas: mode bookkeeping -/

theorem writeDac_eq (s : Sys) (v : ℤ) : writeDac s v = { s with last_dac_value := v } := by
  unfold writeDac
  split
  · rename_i h
    rw [h]
  · rfl

theorem reset_pll_mode (s : Sys) : (reset_pll s).mode = 0 := by
  unfold reset_pll
  split <;> rfl

theorem downgrade_mode_mode (t : Sys) (m : Nat) (hm : t.mode = m) (h1 : 1 ≤ m)
    (h3 : m ≤ 3) : (downgrade_mode t).mode = m - 1 := by
  dsimp only [downgrade_mode]
  omega

theorem gpsEdgeStep_mode (s : Sys) (h : s.mode ≤ 3) :
    ((gpsEdgeStep s).mode = s.mode ∨ (gpsEdgeStep s).mode + 1 = s.mode) ∧
      (gpsEdgeStep s).mode ≤ 3 := by
  dsimp only [gpsEdgeStep, downgrade_mode]
  split
  · split
    · exact ⟨Or.inl rfl, h⟩
    · split
      · rename_i hm
        dsimp only
        omega
      · exact ⟨Or.inl rfl, h⟩
  · exact ⟨Or.inl rfl, h⟩

theorem oscEdgeStep_mode (s : Sys) (osc : Bool) (h : s.mode ≤ 3) :
    ((oscEdgeStep s osc).mode = s.mode ∨ (oscEdgeStep s osc).mode = 0) ∧
      (oscEdgeStep s osc).mode ≤ 3 := by
  dsimp only [oscEdgeStep]
  split
  · split
    · exact ⟨Or.inl rfl, h⟩
    · rw [reset_pll_mode]
      exact ⟨Or.inr rfl, by omega⟩
  · exact ⟨Or.inl rfl, h⟩

theorem startBranch_mode (s : Sys) :
    (startBranch s).mode = 1 ∨ (startBranch s).mode = s.mode := by
  simp only [startBranch, writeDac_eq]
  split
  · split
    · exact Or.inl rfl
    · exact Or.inr rfl
  · exact Or.inr rfl

theorem upgradeStep_mode (s : Sys) (h1 : 1 ≤ s.mode) (h3 : s.mode ≤ 3) :
    ((upgradeStep s).mode = s.mode ∨ (upgradeStep s).mode = s.mode + 1) ∧
      1 ≤ (upgradeStep s).mode ∧ (upgradeStep s).mode ≤ 3 := by
  dsimp only [upgradeStep]
  split
  · rename_i hne
    simp only [ MODE_SLOW] at hne
    split
    · split
      · dsimp only
        omega
      · exact ⟨Or.inl rfl, h1, h3⟩
    · exact ⟨Or.inl rfl, h1, h3⟩
  · exact ⟨Or.inl rfl, h1, h3⟩

theorem downgradeStep_mode (s : Sys) (h1 : 1 ≤ s.mode) (h3 : s.mode ≤ 3) :
    ((downgradeStep s).mode = s.mode ∨ (downgradeStep s).mode + 1 = s.mode) ∧
      1 ≤ (downgradeStep s).mode ∧ (downgradeStep s).mode ≤ 3 := by
  dsimp only [downgradeStep, downgrade_mode]
  split
  · rename_i hne
    simp only [ MODE_FAST] at hne
    split
    · exact ⟨Or.inl rfl, h1, h3⟩
    · split
      · dsimp only
        omega
      · exact ⟨Or.inl rfl, h1, h3⟩
  · exact ⟨Or.inl rfl, h1, h3⟩

theorem piStep_mode (s : Sys) : (piStep s).mode = s.mode := by
  simp only [piStep, writeDac_eq]

theorem pllBranch_mode (s : Sys) (h1 : 1 ≤ s.mode) (h3 : s.mode ≤ 3) :
    ((pllBranch s).mode = s.mode ∨ (pllBranch s).mode = s.mode + 1 ∨
      (pllBranch s).mode + 1 = s.mode) ∧ 1 ≤ (pllBranch s).mode ∧
      (pllBranch s).mode ≤ 3 := by
  unfold pllBranch
  rw [piStep_mode]
  obtain ⟨hu, hu1, hu3⟩ := upgradeStep_mode s h1 h3
  obtain ⟨hd, hd1, hd3⟩ := downgradeStep_mode (upgradeStep s) hu1 hu3
  refine ⟨?_, hd1, hd3⟩
  omega

theorem filterUpdate_mode (s : Sys) (q : ℚ) : (filterUpdate s q).mode = s.mode := rfl

theorem processTick_mode (s : Sys) (q : ℚ) (h : s.mode ≤ 3) :
    ((processTick s q).mode = s.mode ∨ (processTick s q).mode = s.mode + 1 ∨
      (processTick s q).mode + 1 = s.mode ∨ (processTick s q).mode = 0) ∧
      (processTick s q).mode ≤ 3 := by
  simp only [processTick]
  split
  · exact ⟨Or.inl rfl, h⟩
  · have hf : (filterUpdate s q).mode = s.mode := filterUpdate_mode s q
    split
    · rename_i h0
      rw [hf] at h0
      simp only [ MODE_START] at h0
      rcases startBranch_mode (filterUpdate s q) with hm | hm
      · rw [hm]
        omega
      · rw [hm, hf]
        exact ⟨Or.inl rfl, h⟩
    · rename_i h0
      rw [hf] at h0
      simp only [ MODE_START] at h0
      split
      · rw [reset_pll_mode]
        exact ⟨by omega, by omega⟩
      · have hp := pllBranch_mode (filterUpdate s q)
          (by rw [hf]; omega) (by rw [hf]; omega)
        rw [hf] at hp
        omega

theorem gpsEdgeStep_gps (s : Sys) : (gpsEdgeStep s).gps_locked = s.gps_locked := by
  dsimp only [gpsEdgeStep, downgrade_mode]
  split
  · split
    · rfl
    · split <;> rfl
  · rfl

theorem oscEdgeStep_gps (s : Sys) (osc : Bool) :
    (oscEdgeStep s osc).gps_locked = s.gps_locked := by
  dsimp only [oscEdgeStep, reset_pll, writeDac]
  split
  · split
    · rfl
    · split <;> split <;> rfl
  · rfl

theorem gpsEdgeStep_locked_mode (s : Sys) (h : s.gps_locked = true) :
    (gpsEdgeStep s).mode = s.mode := by
  dsimp only [gpsEdgeStep]
  split
  · simp only [h, if_true]
  · rfl

theorem oscEdgeStep_true_mode (s : Sys) : (oscEdgeStep s true).mode = s.mode := by
  dsimp only [oscEdgeStep]
  split
  · rfl
  · rfl

theorem consumeStep_mode (s : Sys) (osc : Bool) (h : s.mode ≤ 3) :
    ((consumeStep s osc).mode = s.mode ∨ (consumeStep s osc).mode = s.mode + 1 ∨
      (consumeStep s osc).mode + 1 = s.mode ∨ (consumeStep s osc).mode = 0) ∧
      (consumeStep s osc).mode ≤ 3 := by
  dsimp only [consumeStep]
  split
  · exact ⟨Or.inl rfl, h⟩
  · split
    · exact ⟨Or.inl rfl, h⟩
    · split
      · exact ⟨Or.inl rfl, h⟩
      · have hp := processTick_mode
          { s with last_pps_count := s.pps_count, pps_err_buf := [] }
          (atof s.pps_err_buf) h
        have hx : ({ s with last_pps_count := s.pps_count, pps_err_buf := [] } : Sys).mode
          = s.mode := rfl
        omega

theorem consumeStep_unlocked_mode (s : Sys) (osc : Bool)
    (h : s.gps_locked = false ∨ osc = false) :
    (consumeStep s osc).mode = s.mode := by
  dsimp only [consumeStep]
  split
  · rfl
  · split
    · rfl
    · split
      · rfl
      · rename_i hc
        push_neg at hc
        rcases h with h | h <;> rw [h] at hc <;> simp at hc

theorem loopIter_mode (s : Sys) (osc : Bool) (h : s.mode ≤ 3) :
    ((loopIter s osc).mode = s.mode ∨ (loopIter s osc).mode = s.mode + 1 ∨
      (loopIter s osc).mode + 1 = s.mode ∨ (loopIter s osc).mode = 0) ∧
      (loopIter s osc).mode ≤ 3 := by
  obtain ⟨hg, hg3⟩ := gpsEdgeStep_mode s h
  obtain ⟨ho, ho3⟩ := oscEdgeStep_mode (gpsEdgeStep s) osc hg3
  dsimp only [loopIter]
  split
  · dsimp only
    omega
  · by_cases hosc : osc = true
    · by_cases hgl : s.gps_locked = true
      · have e2 : (oscEdgeStep (gpsEdgeStep s) osc).mode = (gpsEdgeStep s).mode := by
          rw [hosc]
          exact oscEdgeStep_true_mode _
        have e1 : (gpsEdgeStep s).mode = s.mode := gpsEdgeStep_locked_mode s hgl
        obtain ⟨hc, hc3⟩ := consumeStep_mode (oscEdgeStep (gpsEdgeStep s) osc) osc ho3
        omega
      · have hcu : (consumeStep (oscEdgeStep (gpsEdgeStep s) osc) osc).mode =
            (oscEdgeStep (gpsEdgeStep s) osc).mode :=
          consumeStep_unlocked_mode _ _ (Or.inl (by
            rw [oscEdgeStep_gps, gpsEdgeStep_gps]
            simpa using hgl))
        omega
    · have hcu := consumeStep_unlocked_mode (oscEdgeStep (gpsEdgeStep s) osc) osc
        (Or.inr (by simpa using hosc))
      omega

theorem step_mode (s : Sys) (e : Ev) (h : s.mode ≤ 3) :
    ((step s e).mode = s.mode ∨ (step s e).mode = s.mode + 1 ∨
      (step s e).mode + 1 = s.mode ∨ (step s e).mode = 0) ∧ (step s e).mode ≤ 3 := by
  cases e with
  | pulse t adc => exact ⟨Or.inl rfl, h⟩
  | gpsLine buf =>
    dsimp only [step]
    split
    · exact ⟨Or.inl rfl, h⟩
    · exact ⟨Or.inl rfl, h⟩
  | iter osc => exact loopIter_mode s osc h

theorem run_mode_le (evs : List Ev) (s : Sys) (h : s.mode ≤ 3) : (run s evs).mode ≤ 3 := by
  induction evs generalizing s with
  | nil => exact h
  | cons e evs ih => exact ih (step s e) (step_mode s e h).2

/-! ## Frame encoding lemmas -/

theorem frameByte_lt (v : ℤ) (i : Nat) : frameByte v i < 256 := by
  unfold frameByte
  have h0 : 0 ≤ Int.fdiv v (2 ^ (8 * i)) % 256 := Int.emod_nonneg _ (by norm_num)
  have h1 : Int.fdiv v (2 ^ (8 * i)) % 256 < 256 := Int.emod_lt_of_pos _ (by norm_num)
  omega

theorem frameByte_cast (v : ℤ) (i : Nat) :
    (frameByte v i : ℤ) = Int.fdiv v (2 ^ (8 * i)) % 256 := by
  unfold frameByte
  exact Int.toNat_of_nonneg (Int.emod_nonneg _ (by norm_num))

theorem bytes_reconstruct (x : ℤ) :
    ((((frameByte x 3 * 256 + frameByte x 2) * 256 + frameByte x 1) * 256 + frameByte x 0 : Nat) : ℤ)
      = x % 4294967296 := by
  push_cast [frameByte_cast]
  rw [Int.fdiv_eq_ediv _ (by norm_num), Int.fdiv_eq_ediv _ (by norm_num),
    Int.fdiv_eq_ediv _ (by norm_num), Int.fdiv_eq_ediv _ (by norm_num)]
  norm_num
  omega

theorem decode_encode (v : ℤ) (p : Bool) (hlo : -(2 ^ 29) ≤ v) (hhi : v < 2 ^ 29) :
    decodeFrame (encodeFrame v p) = some (v, p) := by
  have hu := bytes_reconstruct (v * 2 ^ BIT_REDUCE)
  have hb3 := frameByte_lt (v * 2 ^ BIT_REDUCE) 3
  have hb2 := frameByte_lt (v * 2 ^ BIT_REDUCE) 2
  have hb1 := frameByte_lt (v * 2 ^ BIT_REDUCE) 1
  have hb0 := frameByte_lt (v * 2 ^ BIT_REDUCE) 0
  have hrange : -(2147483648 : ℤ) ≤ v * 2 ^ BIT_REDUCE ∧ (v * 2 ^ BIT_REDUCE) < 2147483648 := by
    unfold BIT_REDUCE
    constructor <;> nlinarith
  have hmod : (v * 2 ^ BIT_REDUCE) % 4294967296 =
      v * 2 ^ BIT_REDUCE + (if v * 2 ^ BIT_REDUCE < 0 then 4294967296 else 0) := by
    split <;> omega
  cases p <;>
    · unfold encodeFrame payloadBytes
      simp only [List.cons_append, List.nil_append, decodeFrame, Bool.false_eq_true,
        if_false, if_true]
      rw [if_pos]
      · simp only [Option.some.injEq, Prod.mk.injEq]
        constructor
        · -- value reconstruction
          set u : Nat := ((frameByte (v * 2 ^ BIT_REDUCE) 3 * 256 + frameByte (v * 2 ^ BIT_REDUCE) 2) * 256 +
              frameByte (v * 2 ^ BIT_REDUCE) 1) * 256 + frameByte (v * 2 ^ BIT_REDUCE) 0 with hu_def
          have hsv : (if u < 2147483648 then (u : ℤ) else (u : ℤ) - 4294967296) = v * 2 ^ BIT_REDUCE := by
            have h32 : (u : ℤ) = (v * 2 ^ BIT_REDUCE) % 4294967296 := hu
            have hult : u < 2147483648 ↔ (u : ℤ) < 2147483648 := by omega
            split <;> omega
          rw [hsv, Int.fdiv_eq_ediv _ (by norm_num)]
          exact Int.mul_ediv_cancel _ (by norm_num)
        · decide
      · simp [hb3, hb2, hb1, hb0, payloadChecksum]

theorem xor_cancel_r (a b c : Nat) (h : Nat.xor a c = Nat.xor b c) : a = b :=
  Nat.xor_left_injective h

theorem xor_cancel_l (a b c : Nat) (h : Nat.xor c a = Nat.xor c b) : a = b :=
  Nat.xor_right_injective h

theorem validFrame_corrupt (op hc b3 b2 b1 b0 : Nat)
    (hop : (op = 44 ∧ hc = 37) ∨ (op = 46 ∧ hc = 39)) :
    ∀ i, i < 9 → ∀ c,
      c ≠ ([op, 9, 0, hc, b3, b2, b1, b0,
            Nat.xor (Nat.xor (Nat.xor b3 b2) b1) b0] : List Nat).getD i 0 →
      validFrame (([op, 9, 0, hc, b3, b2, b1, b0,
            Nat.xor (Nat.xor (Nat.xor b3 b2) b1) b0] : List Nat).set i c) = false := by
  intro i hi c hcne
  interval_cases i <;> simp only [List.getD_cons_zero, List.getD_cons_succ, List.set] at hcne ⊢ <;>
    simp only [validFrame, decodeFrame, Option.isSome] <;>
    rw [if_neg] <;> try rfl
  · rintro ⟨-, -, hbad, -⟩
    rcases hop with ⟨h1, h2⟩ | ⟨h1, h2⟩ <;> rcases hbad with ⟨hb1, hb2⟩ | ⟨hb1, hb2⟩ <;> omega
  · rintro ⟨hbad, -⟩
    exact hcne hbad
  · rintro ⟨-, hbad, -⟩
    exact hcne hbad
  · rintro ⟨-, -, hbad, -⟩
    rcases hop with ⟨h1, h2⟩ | ⟨h1, h2⟩ <;> rcases hbad with ⟨hb1, hb2⟩ | ⟨hb1, hb2⟩ <;> omega
  · rintro ⟨-, -, -, -, -, -, -, hbad⟩
    exact hcne (xor_cancel_r _ _ _ (xor_cancel_r _ _ _ (xor_cancel_r _ _ _ hbad.symm)))
  · rintro ⟨-, -, -, -, -, -, -, hbad⟩
    have h1 := xor_cancel_r _ _ _ (xor_cancel_r _ _ _ hbad.symm)
    exact hcne (xor_cancel_l _ _ _ h1)
  · rintro ⟨-, -, -, -, -, -, -, hbad⟩
    have h1 := xor_cancel_r _ _ _ hbad.symm
    exact hcne (xor_cancel_l _ _ _ h1)
  · rintro ⟨-, -, -, -, -, -, -, hbad⟩
    exact hcne (xor_cancel_l _ _ _ hbad.symm)
  · rintro ⟨-, -, -, -, -, -, -, hbad⟩
    exact hcne hbad

/-! ## Claim theorems -/

/-- C10: in every reachable state `mode` is one of Start/Fast/Med/Slow, so
`mode_to_tc` never returns its 0 default where it is used as a divisor:
`reset_pll` divides by `mode_to_tc mode` only when `mode ≠ Start`,
`downgrade_mode` divides by the old mode's (positive) time constant, and
the per-tick filter/PI math divides by `mode_to_tc mode` and
`mode_to_tc mode / 10`, all positive for `mode ≤ 3` — no division by zero
occurs in the control loop. -/
theorem c10_division_safety (evs : List Ev) :
    (run init evs).mode ≤ 3 ∧ 0 < mode_to_tc (run init evs).mode ∧
      (∀ m : Nat, m ≤ 3 → 0 < mode_to_tc m ∧ 0 < mode_to_tc m / 10) := by
  have h := run_mode_le evs init (by decide)
  have hall : ∀ m : Nat, m ≤ 3 → 0 < mode_to_tc m ∧ 0 < mode_to_tc m / 10 := by
    intro m hm
    interval_cases m <;> decide
  exact ⟨h, (hall _ h).1, hall⟩

theorem c10_division_safety_witness :
    0 < mode_to_tc 2 ∧ 0 < mode_to_tc 2 / 10 :=
  (c10_division_safety []).2.2 2 (by decide)

/-- C6 counterexample: a reachable execution in which one step changes
`mode` by more than one: after acquiring lock and 260 nominal seconds the
mode is Med (2); a single further loop pass with the oscillator-ready
bit low resets the PLL, and mode jumps from Med straight to Start (0),
never passing through Fast — refuting the claim that every change of
mode moves it by exactly ±1. -/
theorem c6_counterexample :
    (run init (lockTrace 260)).mode = MODE_MED ∧
      (run init (lockTrace 260 ++ [Ev.iter false])).mode = MODE_START := by
  constructor
  · rw [run_lockTrace_260]
    decide
  · rw [run_append, run_lockTrace_260]
    decide

/-- C6 (amended): `mode` always stays within [Start, Slow]; every hysteresis
step moves `mode` by exactly ±1, while a reset event sets it to Start from
any mode: each step from a state with `mode ≤ 3` either keeps `mode`, moves
it by exactly one, or resets it to Start. -/
theorem c6_mode_adjacent :
    (∀ evs : List Ev, (run init evs).mode ≤ 3) ∧
      (∀ (s : Sys) (e : Ev), s.mode ≤ 3 →
        ((step s e).mode = s.mode ∨ (step s e).mode = s.mode + 1 ∨
          (step s e).mode + 1 = s.mode ∨ (step s e).mode = MODE_START) ∧
          (step s e).mode ≤ 3) :=
  ⟨fun evs => run_mode_le evs init (by decide), fun s e h => step_mode s e h⟩

theorem c6_mode_adjacent_witness :
    ((step (midState 2 0 260) (Ev.iter false)).mode = (midState 2 0 260).mode ∨
      (step (midState 2 0 260) (Ev.iter false)).mode = (midState 2 0 260).mode + 1 ∨
      (step (midState 2 0 260) (Ev.iter false)).mode + 1 = (midState 2 0 260).mode ∨
      (step (midState 2 0 260) (Ev.iter false)).mode = MODE_START) ∧
      (step (midState 2 0 260) (Ev.iter false)).mode ≤ 3 :=
  c6_mode_adjacent.2 (midState 2 0 260) (Ev.iter false) (by decide)

/-- C8 counterexample: the length field of the emitted tuning frame is 9
(`0x09` LSB, `0x00` MSB — the command length bytes of the FE-56x0A
protocol), not 4 as the claim states. -/
theorem c8_counterexample :
    (encodeFrame 0 false).getD 1 0 = 9 ∧ ¬ (encodeFrame 0 false).getD 1 0 = 4 := by
  decide

/-- C8 (amended): the emitted frame is
`[opcode][length_lo][length_hi][header_checksum][4 payload bytes MSB
first][payload_checksum]` with the length field fixed at 9 (not 4), the
payload equal to the tuning value left-shifted by `BIT_REDUCE`, and
`payload_checksum` the XOR of the payload bytes; decoding recovers the
original signed value and persistence flag for any value in the 30-bit
range that survives the shift, and corrupting any single byte makes the
frame invalid under checksum validation. -/
theorem c8_frame_roundtrip (value : ℤ) (persist : Bool)
    (hlo : -(2 ^ 29) ≤ value) (hhi : value < 2 ^ 29) :
    encodeFrame value persist =
      (if persist then 44 else 46) :: 9 :: 0 :: (if persist then 37 else 39) ::
        payloadBytes (value * 2 ^ BIT_REDUCE) ++
          [payloadChecksum (value * 2 ^ BIT_REDUCE)] ∧
    decodeFrame (encodeFrame value persist) = some (value, persist) ∧
    (∀ i, i < 9 → ∀ c, c ≠ (encodeFrame value persist).getD i 0 →
      validFrame ((encodeFrame value persist).set i c) = false) := by
  refine ⟨rfl, decode_encode value persist hlo hhi, ?_⟩
  have he : encodeFrame value persist =
      [if persist then 44 else 46, 9, 0, if persist then 37 else 39,
        frameByte (value * 2 ^ BIT_REDUCE) 3, frameByte (value * 2 ^ BIT_REDUCE) 2,
        frameByte (value * 2 ^ BIT_REDUCE) 1, frameByte (value * 2 ^ BIT_REDUCE) 0,
        Nat.xor (Nat.xor (Nat.xor (frameByte (value * 2 ^ BIT_REDUCE) 3)
          (frameByte (value * 2 ^ BIT_REDUCE) 2)) (frameByte (value * 2 ^ BIT_REDUCE) 1))
          (frameByte (value * 2 ^ BIT_REDUCE) 0)] := rfl
  rw [he]
  exact validFrame_corrupt _ _ _ _ _ _ (by cases persist <;> simp)

theorem c8_frame_roundtrip_witness :
    decodeFrame (encodeFrame 5 true) = some (5, true) ∧
      validFrame ((encodeFrame 5 true).set 4 255) = false := by
  have h := c8_frame_roundtrip 5 true (by norm_num) (by norm_num)
  exact ⟨h.2.1, h.2.2 4 (by norm_num) 255 (by decide)⟩

/-- C2 counterexample: a reachable reset event (oscillator lock loss in
Fast mode with `iTerm = 2196/875`) after which `trim_value` is NOT
`trim_value_before + i_term_before / tc(mode_before)` — the code
subtracts the folded integral term instead of adding it. -/
theorem c2_counterexample :
    (run init c2trace).mode = MODE_FAST ∧
    (run init c2trace).iTerm = 2196 / 875 ∧
    (run init (c2trace ++ [Ev.iter false])).trim_value ≠
      (run init c2trace).trim_value +
        (run init c2trace).iTerm / (mode_to_tc (run init c2trace).mode : ℚ) ∧
    (run init (c2trace ++ [Ev.iter false])).trim_value =
      (run init c2trace).trim_value -
        (run init c2trace).iTerm / (mode_to_tc (run init c2trace).mode : ℚ) := by
  have h : run init c2trace = run (midState 1 0 60) c2tick := by
    rw [c2trace, run_append, run_lockTrace_60]
  rw [run_append, h]
  decide

/-- C2 (amended): after `reset_pll` runs from a state with mode `m`,
`trim_value` equals `trim_value_before - i_term_before / tc(m)` (minus,
not plus: the fold subtracts, matching the sign convention under which
the applied adjustment is `trim_value - adj_val`), the integral term and
both error averages are 0, `exit_timer = 0`, and the mode is Start; from
Start mode `trim_value` is untouched. -/
theorem c2_reset_pll_folding (s : Sys) :
    (s.mode ≠ MODE_START →
      (reset_pll s).trim_value = s.trim_value - s.iTerm / (mode_to_tc s.mode : ℚ)) ∧
    (s.mode = MODE_START → (reset_pll s).trim_value = s.trim_value) ∧
    (reset_pll s).iTerm = 0 ∧ (reset_pll s).exit_timer = 0 ∧
    (reset_pll s).average_phase_error = 0 ∧ (reset_pll s).average_pps_error = 0 ∧
    (reset_pll s).mode = MODE_START := by
  dsimp only [reset_pll]
  split
  · rename_i hne
    exact ⟨fun _ => rfl, fun h0 => absurd h0 hne, rfl, rfl, rfl, rfl, rfl⟩
  · rename_i hne
    exact ⟨fun hne2 => absurd hne2 hne, fun _ => rfl, rfl, rfl, rfl, rfl, rfl⟩

theorem c2_reset_pll_folding_witness :
    (reset_pll (midState 1 0 60)).trim_value =
      (midState 1 0 60).trim_value -
        (midState 1 0 60).iTerm / (mode_to_tc (midState 1 0 60).mode : ℚ) :=
  (c2_reset_pll_folding (midState 1 0 60)).1 (by decide)

/-- C9: on any phase-tracking tick where `|iTerm|` ends up exceeding
`1000 * tc(mode)`, the anti-windup step (invoked at the end of `piStep`)
offloads `1000 * tc` from `iTerm` and 1000 from `trim_value` in the
direction of `iTerm`'s sign; the net applied correction
`trim_value - (p_term + i_term) / tc` is unchanged by the offload for any
`p_term`, and `|iTerm|` strictly decreases (by exactly `1000 * tc`). -/
theorem c9_antiwindup (tc : Nat) (iT trim p : ℚ) (htc : 0 < tc)
    (hbig : 1000 * (tc : ℚ) < |iT|) :
    (antiWindup tc iT trim).1 = iT - (if iT < 0 then (-1 : ℚ) else 1) * (1000 * (tc : ℚ)) ∧
    (antiWindup tc iT trim).2 = trim - (if iT < 0 then (-1 : ℚ) else 1) * 1000 ∧
    (antiWindup tc iT trim).2 - (p + (antiWindup tc iT trim).1) / (tc : ℚ) =
      trim - (p + iT) / (tc : ℚ) ∧
    |(antiWindup tc iT trim).1| = |iT| - 1000 * (tc : ℚ) ∧
    |(antiWindup tc iT trim).1| < |iT| := by
  have htcq : (0 : ℚ) < (tc : ℚ) := by exact_mod_cast htc
  have htcne : (tc : ℚ) ≠ 0 := ne_of_gt htcq
  dsimp only [antiWindup]
  rw [if_pos hbig]
  by_cases hneg : iT < 0
  · simp only [if_pos hneg]
    have habs : |iT - -1 * (1000 * (tc : ℚ))| = |iT| - 1000 * (tc : ℚ) := by
      rw [abs_of_neg hneg] at hbig
      rw [show iT - -1 * (1000 * (tc : ℚ)) = iT + 1000 * (tc : ℚ) from by ring,
        abs_of_neg (by linarith : iT + 1000 * (tc : ℚ) < 0), abs_of_neg hneg]
      ring
    refine ⟨trivial, trivial, ?_, habs, ?_⟩
    · field_simp
      ring
    · rw [habs, abs_of_neg hneg]
      linarith
  · simp only [if_neg hneg]
    push_neg at hneg
    have habs : |iT - 1 * (1000 * (tc : ℚ))| = |iT| - 1000 * (tc : ℚ) := by
      rw [abs_of_nonneg hneg] at hbig
      rw [abs_of_nonneg (by linarith : (0 : ℚ) ≤ iT - 1 * (1000 * (tc : ℚ))),
        abs_of_nonneg hneg]
      ring
    refine ⟨trivial, trivial, ?_, habs, ?_⟩
    · field_simp
      ring
    · rw [habs, abs_of_nonneg hneg]
      linarith

theorem c9_antiwindup_witness :
    |(antiWindup 100 200000 0).1| < |(200000 : ℚ)| :=
  (c9_antiwindup 100 200000 0 0 (by decide) (by decide)).2.2.2.2

/-! ## Latch and edge bookkeeping lemmas -/

theorem gpsEdgeStep_noedge (s : Sys) (h : s.last_gps_locked = some s.gps_locked) :
    gpsEdgeStep s = s := by
  dsimp only [gpsEdgeStep]
  rw [if_neg (by simp [h])]

theorem oscEdgeStep_noedge (s : Sys) (osc : Bool) (h : s.last_osc_locked = some osc) :
    oscEdgeStep s osc = s := by
  dsimp only [oscEdgeStep]
  rw [if_neg (by simp [h])]

theorem gpsEdgeStep_latch (s : Sys) : (gpsEdgeStep s).pps_err_buf = s.pps_err_buf := by
  dsimp only [gpsEdgeStep, downgrade_mode]
  split
  · split
    · rfl
    · split <;> rfl
  · rfl

theorem oscEdgeStep_latch (s : Sys) (osc : Bool) :
    (oscEdgeStep s osc).pps_err_buf = s.pps_err_buf := by
  dsimp only [oscEdgeStep, reset_pll, writeDac]
  split
  · split
    · rfl
    · split <;> split <;> rfl
  · rfl

theorem gpsEdgeStep_lpc (s : Sys) : (gpsEdgeStep s).last_pps_count = s.last_pps_count := by
  dsimp only [gpsEdgeStep, downgrade_mode]
  split
  · split
    · rfl
    · split <;> rfl
  · rfl

theorem oscEdgeStep_lpc (s : Sys) (osc : Bool) :
    (oscEdgeStep s osc).last_pps_count = s.last_pps_count := by
  dsimp only [oscEdgeStep, reset_pll, writeDac]
  split
  · split
    · rfl
    · split <;> split <;> rfl
  · rfl

theorem startBranch_latch (s : Sys) : (startBranch s).pps_err_buf = s.pps_err_buf := by
  simp only [startBranch, writeDac_eq]
  split_ifs <;> rfl

theorem reset_pll_latch (s : Sys) : (reset_pll s).pps_err_buf = s.pps_err_buf := by
  dsimp only [reset_pll]
  split <;> rfl

theorem upgradeStep_latch (s : Sys) : (upgradeStep s).pps_err_buf = s.pps_err_buf := by
  dsimp only [upgradeStep]
  split_ifs <;> rfl

theorem downgradeStep_latch (s : Sys) : (downgradeStep s).pps_err_buf = s.pps_err_buf := by
  simp only [downgradeStep, downgrade_mode]
  split_ifs <;> rfl

theorem piStep_latch (s : Sys) : (piStep s).pps_err_buf = s.pps_err_buf := by
  simp only [piStep, writeDac_eq]

theorem pllBranch_latch (s : Sys) : (pllBranch s).pps_err_buf = s.pps_err_buf := by
  unfold pllBranch
  rw [piStep_latch, downgradeStep_latch, upgradeStep_latch]

theorem processTick_latch (s : Sys) (q : ℚ) :
    (processTick s q).pps_err_buf = s.pps_err_buf := by
  dsimp only [processTick]
  split
  · rfl
  · split
    · rw [startBranch_latch]
      rfl
    · split
      · rw [reset_pll_latch]
        rfl
      · rw [pllBranch_latch]
        rfl

theorem consumeStep_cases (s : Sys) (osc : Bool) :
    consumeStep s osc = s ∨ (consumeStep s osc).pps_err_buf = [] := by
  dsimp only [consumeStep]
  split
  · exact Or.inl rfl
  · split
    · exact Or.inl rfl
    · split
      · exact Or.inr rfl
      · right
        rw [processTick_latch]

theorem loopIter_cases (s : Sys) (osc : Bool) :
    loopIter s osc = { oscEdgeStep (gpsEdgeStep s) osc with clk_pll := true } ∨
      loopIter s osc = consumeStep (oscEdgeStep (gpsEdgeStep s) osc) osc := by
  dsimp only [loopIter]
  split
  · exact Or.inl rfl
  · exact Or.inr rfl

theorem loopIter_latch_empty (s : Sys) (osc : Bool) (h : s.pps_err_buf = []) :
    (loopIter s osc).pps_err_buf = [] := by
  rcases loopIter_cases s osc with hC | hC <;> rw [hC]
  · show (oscEdgeStep (gpsEdgeStep s) osc).pps_err_buf = []
    rw [oscEdgeStep_latch, gpsEdgeStep_latch, h]
  · rcases consumeStep_cases (oscEdgeStep (gpsEdgeStep s) osc) osc with h2 | h2
    · rw [h2, oscEdgeStep_latch, gpsEdgeStep_latch, h]
    · exact h2

theorem run_no_line_latch (evs : List Ev) (s : Sys) (h : s.pps_err_buf = [])
    (hn : ∀ buf, Ev.gpsLine buf ∉ evs) : (run s evs).pps_err_buf = [] := by
  induction evs generalizing s with
  | nil => exact h
  | cons e evs ih =>
    refine ih (step s e) ?_ (fun b hb => hn b (List.mem_cons_of_mem e hb))
    cases e with
    | pulse t a => rfl
    | gpsLine b => exact absurd (List.mem_cons_self _ _) (hn b)
    | iter osc => exact loopIter_latch_empty s osc h

/-- C3 counterexample: a reachable execution in which the GPS fix goes
from locked to unlocked while mode is Start and with a non-zero filtered
phase error; the loop pass that observes the edge performs NO reset: the
phase-error average stays 6/5 (a full reset to Start would zero it). -/
theorem c3_counterexample :
    (run init c3trace).mode = MODE_START ∧
    (run init c3trace).gps_locked = false ∧
    (run init c3trace).last_gps_locked = some true ∧
    (run init c3trace).average_phase_error = 6 / 5 ∧
    (run init (c3trace ++ [Ev.iter true])).average_phase_error = 6 / 5 ∧
    ¬ (run init (c3trace ++ [Ev.iter true])).average_phase_error = 0 ∧
    (run init (c3trace ++ [Ev.iter true])).mode = MODE_START ∧
    (run init (c3trace ++ [Ev.iter true])).last_gps_locked = some false := by
  decide

/-- C3 (amended): whenever the GPS fix status transitions from locked to
unlocked, the loop pass that observes the edge immediately performs a
one-step mode downgrade if mode is above Start, regardless of the current
filter values (setting `enter_timer = 100 * old_mode`); when mode is
already Start the edge handler records the new status but performs NO
reset — the filters and trim are left untouched. -/
theorem c3_gps_loss (s : Sys) (hlast : s.last_gps_locked = some true)
    (hgps : s.gps_locked = false) (h3 : s.mode ≤ 3) :
    (0 < s.mode →
      gpsEdgeStep s = downgrade_mode { s with last_gps_locked := some false } ∧
      (gpsEdgeStep s).mode + 1 = s.mode ∧
      (gpsEdgeStep s).enter_timer = 100 * s.mode) ∧
    (s.mode = 0 → gpsEdgeStep s = { s with last_gps_locked := some false }) := by
  have hcond : some s.gps_locked ≠ s.last_gps_locked := by
    rw [hgps, hlast]
    simp
  dsimp only [gpsEdgeStep]
  rw [if_pos hcond, hgps]
  simp only [Bool.false_eq_true, if_false]
  constructor
  · intro hm
    rw [if_pos hm]
    refine ⟨rfl, ?_, ?_⟩
    · rw [downgrade_mode_mode { s with gps_locked := false, last_gps_locked := some false }
        s.mode rfl hm h3]
      omega
    · dsimp only [downgrade_mode]
      omega
  · intro h0
    have hno : ¬ 0 < ({ s with last_gps_locked := some false } : Sys).mode := by
      dsimp only
      omega
    rw [if_neg hno]

theorem c3_gps_loss_witness :
    gpsEdgeStep c3state = downgrade_mode { c3state with last_gps_locked := some false } :=
  ((c3_gps_loss c3state rfl rfl (by decide)).1 (by decide)).1

/-- C4 counterexample: a pulse with a 12 ns phase offset arrives with no
quantization-error sentence; after two further control-loop passes the
observation has still not been processed — `last_pps_count` has not
advanced and the phase filter is untouched (had the capture been
processed with zero correction, `currentPhaseError 1000 0 = 12` would
have moved `average_phase_error` to 12/10).  The deferral is indefinite,
not one tick. -/
theorem c4_counterexample :
    (run init c4trace).pps_count = 1 ∧
    (run init c4trace).last_pps_count = 0 ∧
    (run init c4trace).average_phase_error = 0 ∧
    (run init c4trace).mode = MODE_START ∧
    (run init c4trace).pps_err_buf = [] ∧
    currentPhaseError 1000 0 = 12 := by
  decide

/-- C4 (amended): while no quantization-error text is present, a loop pass
leaves the state completely unchanged (the pending capture stays pending,
with no one-tick timeout and no zero-correction fallback); the capture is
processed — fused with the latched text — only on a pass where the latch
is non-empty. -/
theorem c4_deferral (s : Sys) (osc : Bool)
    (hg : s.last_gps_locked = some s.gps_locked)
    (ho : s.last_osc_locked = some osc)
    (hc : s.clk_pll = true) :
    (s.pps_err_buf = [] → loopIter s osc = s) ∧
    (s.pps_err_buf ≠ [] → ¬ s.last_pps_count = s.pps_count →
      s.gps_locked = true → osc = true →
      loopIter s osc =
        processTick { s with last_pps_count := s.pps_count, pps_err_buf := [] }
          (atof s.pps_err_buf)) := by
  have hstep : loopIter s osc = consumeStep s osc := by
    dsimp only [loopIter]
    rw [gpsEdgeStep_noedge s hg, oscEdgeStep_noedge s osc ho]
    rw [if_neg]
    intro hcontra
    exact hcontra.2 hc
  rw [hstep]
  constructor
  · intro hbuf
    dsimp only [consumeStep]
    split <;> rfl
  · intro hbuf hlpc hgl hosc
    dsimp only [consumeStep]
    split
    · rename_i h1
      exact absurd h1 hlpc
    · split
      · rename_i h2
        rcases h2 with hx | hx
        · exact absurd hgl hx
        · exact absurd hosc hx
      · rfl

theorem c4_deferral_witness : loopIter (midState 0 0 5) true = midState 0 0 5 :=
  (c4_deferral (midState 0 0 5) true rfl rfl rfl).1 rfl

/-- C1: the quantization-error latch is cleared by every pulse capture
(the next sawtooth sentence applies to the newest pulse), is cleared
again whenever an observation is consumed, and stays empty from a pulse
until a GPS sentence arrives — so a fusion never uses a QE value reported
for an earlier pulse.  On the concrete two-pulse trace where QE sentences
(values 5 then 2) each arrive after their pulse, the second pulse's
fusion uses the second value (phase average 3/10, from
`currentPhaseError 1024 2 = 3`), and with the second sentence missing the
pulse is deferred rather than fused with the leftover first value
(which would have given 8). -/
theorem c1_qe_ordering :
    (∀ (s : Sys) (t adc : Nat), (step s (.pulse t adc)).pps_err_buf = []) ∧
    (∀ (s : Sys) (osc : Bool), (loopIter s osc).last_pps_count ≠ s.last_pps_count →
      (loopIter s osc).pps_err_buf = []) ∧
    (∀ (s : Sys) (t adc : Nat) (evs : List Ev),
      (∀ buf, Ev.gpsLine buf ∉ evs) →
      (run (step s (.pulse t adc)) evs).pps_err_buf = []) ∧
    (run init c1pre).pps_err_buf = [] ∧
    (run init (c1pre ++ [pstiTwo, .iter true])).average_phase_error = 3 / 10 ∧
    currentPhaseError 1024 (atof [50]) = 3 ∧
    currentPhaseError 1024 (atof [53]) = 8 ∧
    (run init (c1pre ++ [.iter true])).average_phase_error = 0 ∧
    (run init (c1pre ++ [.iter true])).last_pps_count = 0 := by
  refine ⟨fun s t adc => rfl, ?_, ?_, by decide, by decide, by decide, by decide,
    by decide, by decide⟩
  · intro s osc h
    rcases loopIter_cases s osc with hC | hC
    · exfalso
      apply h
      rw [hC]
      show (oscEdgeStep (gpsEdgeStep s) osc).last_pps_count = s.last_pps_count
      rw [oscEdgeStep_lpc, gpsEdgeStep_lpc]
    · rcases consumeStep_cases (oscEdgeStep (gpsEdgeStep s) osc) osc with h2 | h2
      · exfalso
        apply h
        rw [hC, h2, oscEdgeStep_lpc, gpsEdgeStep_lpc]
      · rw [hC]
        exact h2
  · intro s t adc evs hn
    exact run_no_line_latch evs _ rfl hn

theorem c1_qe_ordering_witness :
    (run (step init (Ev.pulse 30000000 1024)) [Ev.iter true]).pps_err_buf = [] :=
  c1_qe_ordering.2.2.1 init 30000000 1024 [Ev.iter true] (fun buf hb => by simp at hb)

/-- Start-to-Fast promotion condition of the `MODE_START` branch. -/
theorem startBranch_promote (t : Sys) (h0 : t.mode = MODE_START) :
    (startBranch t).mode = MODE_FAST ↔
      |t.average_pps_error| ≤ 25 / 100 ∧
        ((60 ≤ (t.exit_timer + 1) % 65536 ∧ |t.average_phase_error| ≤ 20) ∨
          600 ≤ (t.exit_timer + 1) % 65536) := by
  simp only [startBranch, writeDac_eq]
  split_ifs with h1 h2
  · simp [h1, h2]
  · simp [h0, h2, MODE_FAST, MODE_START]
  · simp [h0, h1, MODE_FAST, MODE_START]

/-- C5 counterexample: with the ADC at midpoint, `cycle_span` exactly
nominal for 60 consecutive seconds and the quantization-error text empty
each time (no QE sentence ever arrives), the engine never promotes: the
empty latch makes every loop pass defer the pulse, so at tick 60 the mode
is still Start and the exit timer never even started, refuting promotion
at tick 60. -/
theorem c5_counterexample :
    (run init c5trace).pps_count = 60 ∧
    (run init c5trace).mode = MODE_START ∧
    (run init c5trace).exit_timer = 0 := by
  decide

/-- C5 (amended): with nominal cycle spans, midpoint ADC readings and a
quantization-error sentence parsing to zero arriving for each pulse (the
loop defers while the QE text is empty, so "empty text" must be read as
"zero-valued sentence" for the scenario to progress), Start promotes to
Fast exactly at tick 60 — not at tick 59 — with `average_pps_error` = 0;
in general a Start-mode tick promotes to Fast exactly when the updated
`|average_pps_error|` is at most 0.25 and either the exit timer reaches
60 with the updated `|average_phase_error|` at most 20 ns, or it reaches
600 (timeout fallback). -/
theorem c5_start_to_fast :
    ((run init (lockTrace 59)).mode = MODE_START ∧
      (run init (lockTrace 60)).mode = MODE_FAST ∧
      (run init (lockTrace 60)).average_pps_error = 0) ∧
    (∀ (s : Sys) (q : ℚ), s.mode = MODE_START → sanityFail s.irq_time_span = false →
      ((processTick s q).mode = MODE_FAST ↔
        |(filterUpdate s q).average_pps_error| ≤ 25 / 100 ∧
          ((60 ≤ (s.exit_timer + 1) % 65536 ∧
            |(filterUpdate s q).average_phase_error| ≤ 20) ∨
            600 ≤ (s.exit_timer + 1) % 65536))) := by
  constructor
  · refine ⟨?_, ?_, ?_⟩
    · rw [run_lockTrace_59]
      rfl
    · rw [run_lockTrace_60]
      rfl
    · rw [run_lockTrace_60]
      rfl
  · intro s q h0 hsan
    dsimp only [processTick]
    rw [hsan]
    simp only [Bool.false_eq_true, if_false]
    rw [if_pos (show (filterUpdate s q).mode = MODE_START by rw [filterUpdate_mode, h0])]
    rw [startBranch_promote (filterUpdate s q) (by rw [filterUpdate_mode, h0])]
    exact Iff.rfl

theorem c5_start_to_fast_witness :
    (processTick (midState 0 59 59) 0).mode = MODE_FAST :=
  (c5_start_to_fast.2 (midState 0 59 59) 0 rfl (by decide)).mpr (by decide)

/-- C7 counterexample: `$GPGSA,A,3*30` carries a valid checksum but far
fewer comma-delimited fields than the GPGSA sentence shape requires (the
handler itself later skips 13 further commas for the PDOP field, which
fails here) — yet feeding it with `gps_locked = false` flips
`gps_locked` to `true`: a state change, refuting the claim that malformed
sentences never change state. -/
theorem c7_counterexample :
    checksumOk gpgsaTrunc = true ∧
    skipCommas (cstr gpgsaTrunc) 15 = none ∧
    handleGPSFn gpgsaTrunc false [] = (true, []) := by
  decide

/-- C7 (amended): the handler makes no state change on an input line that
is shorter than the minimum sentence, fails the XOR checksum, or has too
few comma-delimited fields to reach the field it extracts (two commas for
the GPGSA fix-type field, four for the PSTI quantization-error field);
however, a sentence that is well-formed up to the extracted field but
truncated after it still updates that field. -/
theorem c7_reject_no_change (buf : List Nat) (g : Bool) (qe : List Nat) :
    (buf.length < 9 → handleGPSFn buf g qe = (g, qe)) ∧
    (checksumOk buf = false → handleGPSFn buf g qe = (g, qe)) ∧
    (GPGSA_id.isPrefixOf buf → skipCommas (cstr buf) 2 = none →
      handleGPSFn buf g qe = (g, qe)) ∧
    (PSTI00_id.isPrefixOf buf → skipCommas (cstr buf) 4 = none →
      handleGPSFn buf g qe = (g, qe)) := by
  refine ⟨?_, ?_, ?_, ?_⟩
  · intro h
    dsimp only [handleGPSFn]
    rw [if_pos h]
  · intro h
    dsimp only [handleGPSFn]
    split
    · rfl
    · rw [if_pos (by simp [h])]
  · intro hpre hskip
    dsimp only [handleGPSFn]
    split
    · rfl
    · split
      · rfl
      · split
        · rfl
        · rw [hskip]
  · intro hpre hskip
    dsimp only [handleGPSFn]
    split
    · rfl
    · split
      · rfl
      · split
        · rfl
        · split
          · rename_i hg2
            exfalso
            rw [List.isPrefixOf_iff_prefix] at hpre
            obtain ⟨t, rfl⟩ := hpre
            simp [GPGSA_id, PSTI00_id, List.isPrefixOf] at hg2
          · rw [hskip]

theorem c7_reject_no_change_witness :
    handleGPSFn gpgsaBadck true [48] = (true, [48]) :=
  (c7_reject_no_change gpgsaBadck true [48]).2.1 (by decide)

end GPSDO
